import Mathlib

/-!
Shallow embedding of the two validators of the claude-code-marketplace
repository:

* `scripts/validate-plugin-schema.py`  (class `PluginValidator`)
* `scripts/validate-marketplace-sync.py` (class `MarketplaceSyncValidator`)

Python mutable state (`self.errors`, `self.warnings`, boolean returns) is
modelled by pure functions returning the lists of appended error strings,
warning strings, and the returned boolean, in source order.  Machine
representation of JSON documents is an inductive `Json`; the outcome of
reading and `json.load`-ing a file is a `ReadResult` (successful parse /
`json.JSONDecodeError` / any other exception).  Exception detail text and
the apostrophes of the Python f-strings are elided from the messages; the
message shapes otherwise follow the source.
-/

/-- JSON values as produced by `json.load`. -/
inductive Json where
  | null
  | bool (b : Bool)
  | num (n : Int)
  | str (s : String)
  | arr (elems : List Json)
  | obj (fields : List (String × Json))

/-- Outcome of opening a file and `json.load`-ing it: success with payload,
`json.JSONDecodeError`, or any other exception while reading. -/
inductive ReadResult (α : Type) where
  | ok (val : α)
  | parseError
  | readError

/-- Python `isinstance(x, str)`. -/
def isStr : Json → Bool
  | .str _ => true
  | _ => false

/-- Python `isinstance(x, str) and x` (a truthy string is a non-empty one). -/
def isNonEmptyStr : Json → Bool
  | .str s => !(s == "")
  | _ => false

/-- `PLUGIN_JSON_REQUIRED_FIELDS` of the schema validator. -/
def requiredFields : List String := ["name", "version", "description"]

def nonEmptyStrMsg (pn field : String) : String :=
  "[" ++ pn ++ "] plugin.json " ++ field ++ " must be a non-empty string"

def missingFieldsMsg (pn : String) (missing : List String) : String :=
  "[" ++ pn ++ "] plugin.json missing required fields: " ++ String.intercalate ", " missing

def missingManifestMsg (pn : String) : String :=
  "[" ++ pn ++ "] Missing required file: .claude-plugin/plugin.json (Plugin manifest file)"

def invalidManifestMsg (pn : String) : String :=
  "[" ++ pn ++ "] Invalid JSON in plugin.json"

def readManifestMsg (pn : String) : String :=
  "[" ++ pn ++ "] Error reading plugin.json"

def authorObjMsg (pn : String) : String :=
  "[" ++ pn ++ "] plugin.json author must be an object"

def authorNeedsNameMsg (pn : String) : String :=
  "[" ++ pn ++ "] plugin.json author must have a name field"

def keywordsArrayMsg (pn : String) : String :=
  "[" ++ pn ++ "] plugin.json keywords must be an array"

def keywordsStringsMsg (pn : String) : String :=
  "[" ++ pn ++ "] plugin.json keywords must contain only strings"

def commandsTypeMsg (pn : String) : String :=
  "[" ++ pn ++ "] plugin.json commands must be a string or array"

def commandsStringsMsg (pn : String) : String :=
  "[" ++ pn ++ "] plugin.json commands array must contain only strings"

/-- `validate_author_field`: errors appended and returned boolean.  The Python
function returns early on a non-object, a missing `name`, or an invalid
`name`; otherwise it checks `email` and `url` independently. -/
def validate_author_field (author : Json) (pn : String) : List String × Bool :=
  match author with
  | .obj fs =>
    match fs.lookup "name" with
    | none => ([authorNeedsNameMsg pn], false)
    | some v =>
      if isNonEmptyStr v then
        let e1 : List String :=
          match fs.lookup "email" with
          | none => []
          | some w => if isNonEmptyStr w then [] else [nonEmptyStrMsg pn "author.email"]
        let e2 : List String :=
          match fs.lookup "url" with
          | none => []
          | some w => if isNonEmptyStr w then [] else [nonEmptyStrMsg pn "author.url"]
        (e1 ++ e2, e1.isEmpty && e2.isEmpty)
      else ([nonEmptyStrMsg pn "author.name"], false)
  | _ => ([authorObjMsg pn], false)

/-- Type check of one required field: `data.get(f)` must be a truthy string.
(Python `data.get` yields `None` when the key is absent; modelled by the
`Json.null` default, which is not a string.) -/
def checkReq (d : List (String × Json)) (pn f : String) : List String :=
  if isNonEmptyStr ((d.lookup f).getD Json.null) then [] else [nonEmptyStrMsg pn f]

/-- Check of an optional field that, if present, must be a non-empty string
(`homepage`, `repository`, `license`, `agents`, `hooks`, `mcpServers`). -/
def checkOptStr (d : List (String × Json)) (pn f : String) : List String :=
  match d.lookup f with
  | none => []
  | some v => if isNonEmptyStr v then [] else [nonEmptyStrMsg pn f]

/-- Check of the optional `keywords` field: an array of strings. -/
def checkKeywords (d : List (String × Json)) (pn : String) : List String :=
  match d.lookup "keywords" with
  | none => []
  | some (.arr xs) => if xs.all isStr then [] else [keywordsStringsMsg pn]
  | some _ => [keywordsArrayMsg pn]

/-- Check of the optional `commands` field: a string, or an array of strings. -/
def checkCommands (d : List (String × Json)) (pn : String) : List String :=
  match d.lookup "commands" with
  | none => []
  | some (.str _) => []
  | some (.arr xs) => if xs.all isStr then [] else [commandsStringsMsg pn]
  | some _ => [commandsTypeMsg pn]

/-- Check of the optional `author` field via `validate_author_field`. -/
def checkAuthor (d : List (String × Json)) (pn : String) : List String × Bool :=
  match d.lookup "author" with
  | none => ([], true)
  | some a => validate_author_field a pn

/-- `validate_plugin_json`: the manifest file has been found; `r` is the
outcome of reading and parsing it (the payload of a successful parse is the
manifest object's key/value list — the claims concern object manifests).
Returns the appended errors and the returned boolean.  Mirrors the source:
if any required field is absent, one aggregated error is emitted and the
function returns `False` at once; otherwise every remaining check runs and
`is_valid` ends up false exactly when some check appended an error. -/
def validate_plugin_json (r : ReadResult (List (String × Json))) (pn : String) :
    List String × Bool :=
  match r with
  | .parseError => ([invalidManifestMsg pn], false)
  | .readError => ([readManifestMsg pn], false)
  | .ok d =>
    let missing := requiredFields.filter (fun f => (d.lookup f).isNone)
    if missing.isEmpty then
      let eName := checkReq d pn "name"
      let eVersion := checkReq d pn "version"
      let eDescription := checkReq d pn "description"
      let eAuthor := checkAuthor d pn
      let eHomepage := checkOptStr d pn "homepage"
      let eRepository := checkOptStr d pn "repository"
      let eLicense := checkOptStr d pn "license"
      let eKeywords := checkKeywords d pn
      let eCommands := checkCommands d pn
      let eAgents := checkOptStr d pn "agents"
      let eHooks := checkOptStr d pn "hooks"
      let eMcp := checkOptStr d pn "mcpServers"
      (eName ++ eVersion ++ eDescription ++ eAuthor.1 ++ eHomepage ++ eRepository ++
         eLicense ++ eKeywords ++ eCommands ++ eAgents ++ eHooks ++ eMcp,
       eName.isEmpty && eVersion.isEmpty && eDescription.isEmpty && eAuthor.2 &&
         eHomepage.isEmpty && eRepository.isEmpty && eLicense.isEmpty &&
         eKeywords.isEmpty && eCommands.isEmpty && eAgents.isEmpty &&
         eHooks.isEmpty && eMcp.isEmpty)
    else ([missingFieldsMsg pn missing], false)

/-- One immediate subdirectory of `skills/`: its name and whether it owns a
`SKILL.md` file. -/
structure SkillDir where
  name : String
  hasSkillMd : Bool
deriving DecidableEq

/-- One `.json` file found by `glob` under `hooks/`: its name and whether it
parses as JSON. -/
structure HookFile where
  name : String
  parses : Bool
deriving DecidableEq

/-- A directory under the plugins root, as inspected by `validate_plugin`.
`pluginJson` is the manifest at `.claude-plugin/plugin.json` (`none` when the
file is missing).  `commands`/`agents` are, when the directory exists, the
names of its `*.md` files; `skills` its immediate subdirectories; `hooks` its
`*.json` files. -/
structure PluginDir where
  name : String
  pluginJson : Option (ReadResult (List (String × Json)))
  commands : Option (List String)
  agents : Option (List String)
  skills : Option (List SkillDir)
  hooks : Option (List HookFile)
  scripts : Bool
  mcpJson : Option (ReadResult Unit)
  license : Bool
  changelog : Bool
  readme : Bool

def mdEmptyMsg (pn dirName : String) : String :=
  "[" ++ pn ++ "] " ++ dirName ++ "/ directory exists but contains no .md files"

def skillsEmptyMsg (pn : String) : String :=
  "[" ++ pn ++ "] skills/ directory exists but contains no skill directories"

def skillMdMsg (pn sd : String) : String :=
  "[" ++ pn ++ "] Skill directory " ++ sd ++ " missing SKILL.md"

def jsonEmptyMsg (pn dirName : String) : String :=
  "[" ++ pn ++ "] " ++ dirName ++ "/ directory exists but contains no .json files"

def invalidHookMsg (pn fname : String) : String :=
  "[" ++ pn ++ "] Invalid JSON in " ++ fname

def invalidMcpMsg (pn : String) : String :=
  "[" ++ pn ++ "] Invalid JSON in .mcp.json"

def readMcpMsg (pn : String) : String :=
  "[" ++ pn ++ "] Error reading .mcp.json"

/-- `validate_markdown_files`: warns when the directory holds no `.md` file;
always returns `True`. -/
def validate_markdown_files (mdFiles : List String) (dirName pn : String) :
    List String × Bool :=
  (if mdFiles.isEmpty then [mdEmptyMsg pn dirName] else [], true)

/-- `validate_skills`: warns when `skills/` has no subdirectory, and warns per
subdirectory lacking `SKILL.md`; always returns `True`. -/
def validate_skills (skillDirs : List SkillDir) (pn : String) :
    List String × Bool :=
  if skillDirs.isEmpty then ([skillsEmptyMsg pn], true)
  else (skillDirs.filterMap
    (fun sd => if sd.hasSkillMd then none else some (skillMdMsg pn sd.name)), true)

/-- `validate_json_files` (used for `hooks/`): warns when no `.json` file is
present; otherwise every file failing to parse is an error, and the returned
boolean is false when any failed. -/
def validate_json_files (jsonFiles : List HookFile) (dirName pn : String) :
    List String × List String × Bool :=
  if jsonFiles.isEmpty then ([], [jsonEmptyMsg pn dirName], true)
  else (jsonFiles.filterMap
         (fun jf => if jf.parses then none else some (invalidHookMsg pn jf.name)),
        [], jsonFiles.all (fun jf => jf.parses))

/-- `validate_mcp_json`: a JSON decode error is an error (returns `False`);
any other read failure is only a warning (returns `True`). -/
def validate_mcp_json (r : ReadResult Unit) (pn : String) :
    List String × List String × Bool :=
  match r with
  | .ok _ => ([], [], true)
  | .parseError => ([invalidMcpMsg pn], [], false)
  | .readError => ([], [readMcpMsg pn], true)

/-- `validate_plugin`: errors, warnings and the returned `plugin_valid`, in
the source's append order.  Note that a missing manifest appends its error and
clears validity, but the loops over the optional directories and optional
files still run afterwards. -/
def validate_plugin (p : PluginDir) : List String × List String × Bool :=
  let manifest : List String × Bool :=
    match p.pluginJson with
    | none => ([missingManifestMsg p.name], false)
    | some r => validate_plugin_json r p.name
  let cmds : List String × Bool :=
    match p.commands with
    | none => ([], true)
    | some fs => validate_markdown_files fs "commands" p.name
  let ags : List String × Bool :=
    match p.agents with
    | none => ([], true)
    | some fs => validate_markdown_files fs "agents" p.name
  let skl : List String × Bool :=
    match p.skills with
    | none => ([], true)
    | some ds => validate_skills ds p.name
  let hks : List String × List String × Bool :=
    match p.hooks with
    | none => ([], [], true)
    | some fs => validate_json_files fs "hooks" p.name
  let mcp : List String × List String × Bool :=
    match p.mcpJson with
    | none => ([], [], true)
    | some r => validate_mcp_json r p.name
  (manifest.1 ++ hks.1 ++ mcp.1,
   cmds.1 ++ ags.1 ++ skl.1 ++ hks.2.1 ++ mcp.2.1,
   manifest.2 && cmds.2 && ags.2 && skl.2 && hks.2.2 && mcp.2.2)

/-- Effective character class of the source pattern `[a-z0-9-]` under
`re.IGNORECASE`: ASCII letters of either case, digits, and the hyphen. -/
def tokChar (c : Char) : Bool :=
  c.isLower || c.isUpper || c.isDigit || c == '-'

/-- Character class `[A-Za-z0-9 -]` of the bold-name pattern. -/
def boldChar (c : Char) : Bool :=
  c.isLower || c.isUpper || c.isDigit || c == ' ' || c == '-'

/-- ASCII portion of the regex class `\s` (the documentation texts the
checker scans are ASCII markdown). -/
def wsChar (c : Char) : Bool :=
  c == ' ' || c == '\t' || c == '\n' || c == '\r' || c == '\x0b' || c == '\x0c'

/-- Case-insensitive "does `hay` start with `needle`". -/
def matchCI : List Char → List Char → Bool
  | [], _ => true
  | _ :: _, [] => false
  | a :: as, b :: bs => (a.toLower == b.toLower) && matchCI as bs

def installLit : List Char := "/plugin install ".data

/-- `re.findall` of `/plugin install ([a-z0-9-]+)` with `re.IGNORECASE`:
left-to-right, non-overlapping; each match's captured group is the maximal
run of class characters after the (case-insensitively matched) literal.
`fuel` bounds the scan (one unit per step; `length + 1` suffices). -/
def scanInstall : Nat → List Char → List (List Char)
  | 0, _ => []
  | _ + 1, [] => []
  | fuel + 1, c :: rest =>
    if matchCI installLit (c :: rest) then
      let after := (c :: rest).drop installLit.length
      let tok := after.takeWhile tokChar
      if tok.isEmpty then scanInstall fuel rest
      else tok :: scanInstall fuel (after.drop tok.length)
    else scanInstall fuel rest

/-- `re.findall` of `([a-z0-9-]+)@` with `re.IGNORECASE`: each match's group
is a maximal run of class characters immediately followed by `@`; the scan
resumes after the `@`. -/
def scanAt : Nat → List Char → List (List Char)
  | 0, _ => []
  | _ + 1, [] => []
  | fuel + 1, c :: rest =>
    if tokChar c then
      let tok := (c :: rest).takeWhile tokChar
      match (c :: rest).drop tok.length with
      | '@' :: rest2 => tok :: scanAt fuel rest2
      | after => scanAt fuel after
    else scanAt fuel rest

/-- `re.findall` of `\*\*([A-Za-z0-9 -]+)\*\*\s*-`: a nonempty maximal run of
`boldChar`s between two `**` markers, then optional whitespace, then a
hyphen.  (The character classes exclude the delimiters, so the regex engine's
greedy matching with backtracking is equivalent to this maximal-munch scan.) -/
def scanBold : Nat → List Char → List (List Char)
  | 0, _ => []
  | _ + 1, [] => []
  | fuel + 1, c :: rest =>
    match c, rest with
    | '*', '*' :: rest2 =>
      let tok := rest2.takeWhile boldChar
      if tok.isEmpty then scanBold fuel rest
      else
        match rest2.drop tok.length with
        | '*' :: '*' :: rest3 =>
          let ws := rest3.takeWhile wsChar
          match rest3.drop ws.length with
          | '-' :: rest4 => tok :: scanBold fuel rest4
          | _ => scanBold fuel rest
        | _ => scanBold fuel rest
    | _, _ => scanBold fuel rest

/-- `name.lower().replace(' ', '-')` applied to a captured bold name. -/
def kebab (cs : List Char) : List Char :=
  cs.map (fun c => if c == ' ' then '-' else c.toLower)

/-- Tokens of the `/plugin install ` pattern family. -/
def installTokens (content : String) : List String :=
  (scanInstall (content.data.length + 1) content.data).map String.mk

/-- Tokens of the `@`-suffix pattern family. -/
def atTokens (content : String) : List String :=
  (scanAt (content.data.length + 1) content.data).map String.mk

/-- Kebab-cased display names of the bold-emphasis pattern family. -/
def boldTokens (content : String) : List String :=
  (scanBold (content.data.length + 1) content.data).map (fun t => String.mk (kebab t))

/-- The fixed `false_positives` denylist. -/
def falsePositives : List String :=
  ["claude-code-marketplace", "marketplace", "your-org", "test",
   "my-first-plugin", "my-plugin", "dev-marketplace", "plugin-name"]

/-- `extract_plugin_names_from_markdown`: the union (as a deduplicated list,
modelling the Python set) of the three pattern families, minus the fixed
denylist. -/
def extract_plugin_names_from_markdown (content : String) : List String :=
  ((installTokens content ++ atTokens content ++ boldTokens content).dedup).filter
    (fun n => !(falsePositives.contains n))

/-- A directory entry under the plugins root as seen by `get_plugin_list`:
its name, whether it is a directory, and (when the manifest file exists) the
outcome of reading `.claude-plugin/plugin.json`. -/
structure DirEntry where
  name : String
  isDir : Bool
  pluginJson : Option (ReadResult (List (String × Json)))

/-- The per-plugin reporting record built by `get_plugin_list`
(`plugin_data.get` with defaults). -/
structure PluginInfo where
  name : Json
  description : Json
  version : Json

def syncReadMsg (dn : String) : String :=
  "Could not read plugin.json for " ++ dn

/-- `get_plugin_list`: the `plugins` dict (as an association list keyed by
directory name, in iteration order — directory names on a filesystem are
distinct) and the appended warnings.  Non-directories are skipped; entries
without the manifest file are skipped silently; a manifest that fails to load
is a warning and the entry is skipped. -/
def get_plugin_list : List DirEntry → List (String × PluginInfo) × List String
  | [] => ([], [])
  | e :: rest =>
    if e.isDir then
      match e.pluginJson with
      | none => get_plugin_list rest
      | some (.ok d) =>
        let info : PluginInfo :=
          { name := (d.lookup "name").getD (Json.str e.name)
            description := (d.lookup "description").getD (Json.str "")
            version := (d.lookup "version").getD (Json.str "") }
        let r := get_plugin_list rest
        ((e.name, info) :: r.1, r.2)
      | some .parseError =>
        let r := get_plugin_list rest
        (r.1, syncReadMsg e.name :: r.2)
      | some .readError =>
        let r := get_plugin_list rest
        (r.1, syncReadMsg e.name :: r.2)
    else get_plugin_list rest

/-- Insertion into a lexicographically sorted list of strings. -/
def insertSorted (x : String) : List String → List String
  | [] => [x]
  | y :: ys => if x ≤ y then x :: y :: ys else y :: insertSorted x ys

/-- Ascending lexicographic sort, modelling Python `sorted` on strings. -/
def sortStrings : List String → List String
  | [] => []
  | x :: xs => insertSorted x (sortStrings xs)

def mayBeMissingMsg (label : String) (missing : List String) : String :=
  label ++ " may be missing these plugins: " ++
    String.intercalate ", " (sortStrings missing)

def noReadmeMsg : String := "README.md not found"

/-- The set-difference check run on one documentation text: the migrated
names absent from the extraction yield one aggregated warning (and a `False`
validity flag); an empty difference yields nothing. -/
def doc_check (label : String) (keys : List String) (content : String) :
    List String × Bool :=
  let missing := keys.filter
    (fun k => !((extract_plugin_names_from_markdown content).contains k))
  if missing.isEmpty then ([], true) else ([mayBeMissingMsg label missing], false)

/-- Python substring containment `needle in hay` on the character lists. -/
def subList : List Char → List Char → Bool
  | n, [] => n.isEmpty
  | n, c :: rest => n.isPrefixOf (c :: rest) || subList n rest

/-- Python `needle in hay` for strings. -/
def containsSubstr (hay needle : String) : Bool :=
  subList needle.data hay.data

/-- The heuristic deciding whether `plugins.md` is a catalog: it contains
`# Plugins` and does not contain `## Quickstart`. -/
def catalogLike (content : String) : Bool :=
  containsSubstr content "# Plugins" && !(containsSubstr content "## Quickstart")

/-- Input of `validate_marketplace_sync`: the entries of the plugins
directory and the contents of `README.md` and `plugins.md` (`none` = the file
does not exist). -/
structure SyncInput where
  entries : List DirEntry
  readme : Option String
  pluginsMd : Option String

/-- `validate_marketplace_sync`: errors (never appended by this function),
warnings, and the returned boolean.  An empty plugin dict returns early;
a missing `README.md` is a warning that does not clear validity; `plugins.md`
is only checked when `catalogLike`. -/
def validate_marketplace_sync (inp : SyncInput) : List String × List String × Bool :=
  let gp := get_plugin_list inp.entries
  if gp.1.isEmpty then ([], gp.2, true)
  else
    let keys := gp.1.map Prod.fst
    let readmePart : List String × Bool :=
      match inp.readme with
      | some content => doc_check "README.md" keys content
      | none => ([noReadmeMsg], true)
    let mdPart : List String × Bool :=
      match inp.pluginsMd with
      | some content =>
        if catalogLike content then doc_check "plugins.md" keys content
        else ([], true)
      | none => ([], true)
    ([], gp.2 ++ readmePart.1 ++ mdPart.1, readmePart.2 && mdPart.2)

def prMismatchMsg : String :=
  "Plugin files were modified but marketplace files (README.md, plugins.md) were not updated. Please update the marketplace documentation to reflect the plugin changes."

/-- `validate_on_pr`, in the GitHub Actions environment: `diff` is the
changed-file list when `git diff --name-only origin/main...HEAD` succeeded,
`none` when it exited non-zero or raised (both of which return `True` with no
error).  With a list in hand: no path under `plugins/` is success; otherwise
an exact occurrence of `README.md` or `plugins.md` in the list is success,
and their absence is the one appended error. -/
def validate_on_pr (diff : Option (List String)) : List String × Bool :=
  match diff with
  | none => ([], true)
  | some changed =>
    let pluginChanges := changed.filter (fun f => f.startsWith "plugins/")
    if pluginChanges.isEmpty then ([], true)
    else if changed.contains "README.md" || changed.contains "plugins.md" then
      ([], true)
    else ([prMismatchMsg], false)

/-! ## Helper lemmas -/

theorem ite_none_some_eq_none {α : Type} (b : Bool) (x : α) :
    ((if b then none else some x) = none) ↔ b = true := by
  cases b <;> simp

theorem author_errors_iff (a : Json) (pn : String) :
    (validate_author_field a pn).2 = true ↔ (validate_author_field a pn).1 = [] := by
  unfold validate_author_field
  cases a <;> try simp
  case obj fs =>
    cases hn : fs.lookup "name" with
    | none => simp
    | some v =>
      by_cases hv : isNonEmptyStr v
      · simp only [hv, if_true]
        cases he : fs.lookup "email" <;> cases hu : fs.lookup "url" <;>
          simp [List.isEmpty_iff]
      · simp [hv]

theorem checkAuthor_iff (d : List (String × Json)) (pn : String) :
    (checkAuthor d pn).2 = true ↔ (checkAuthor d pn).1 = [] := by
  unfold checkAuthor
  cases h : d.lookup "author" with
  | none => simp
  | some a => exact author_errors_iff a pn

theorem vpj_errors_iff (r : ReadResult (List (String × Json))) (pn : String) :
    (validate_plugin_json r pn).2 = true ↔ (validate_plugin_json r pn).1 = [] := by
  cases r with
  | parseError => simp [validate_plugin_json]
  | readError => simp [validate_plugin_json]
  | ok d =>
    unfold validate_plugin_json
    by_cases hm : ((requiredFields.filter (fun f => (d.lookup f).isNone)).isEmpty : Bool)
    · simp only [hm, if_true]
      simp [List.isEmpty_iff, checkAuthor_iff]
      tauto
    · simp [hm]

theorem vjf_valid_iff (fs : List HookFile) (dn pn : String) :
    (validate_json_files fs dn pn).2.2 = true ↔ (validate_json_files fs dn pn).1 = [] := by
  unfold validate_json_files
  split
  · simp
  · simp only [List.filterMap_eq_nil_iff, List.all_eq_true]
    constructor
    · intro h a ha
      rw [ite_none_some_eq_none]
      exact h a ha
    · intro h a ha
      have := h a ha
      rw [ite_none_some_eq_none] at this
      exact this

theorem mcp_valid_iff (r : ReadResult Unit) (pn : String) :
    (validate_mcp_json r pn).2.2 = true ↔ (validate_mcp_json r pn).1 = [] := by
  cases r <;> simp [validate_mcp_json]

theorem skills_snd (ds : List SkillDir) (pn : String) :
    (validate_skills ds pn).2 = true := by
  unfold validate_skills
  split <;> rfl

/-- C5: a plugin is valid (enters the validated set) exactly when its
validation produced zero errors; the warning-only checks (markdown files,
skills, an unreadable `.mcp.json`) always return `True` and so can never
remove a plugin from the valid set. -/
theorem valid_iff_no_errors (p : PluginDir) :
    ((validate_plugin p).2.2 = true ↔ (validate_plugin p).1 = []) ∧
    (∀ fs dn, (validate_markdown_files fs dn p.name).2 = true) ∧
    (∀ ds, (validate_skills ds p.name).2 = true) ∧
    (validate_mcp_json .readError p.name).2.2 = true := by
  refine ⟨?_, fun fs dn => rfl, fun ds => skills_snd ds p.name, rfl⟩
  rcases p with ⟨pn, pj, cm, ag, sk, hk, sc, mc, li, ch, re⟩
  cases pj <;> cases cm <;> cases ag <;> cases sk <;> cases hk <;> cases mc <;>
    simp [validate_plugin, validate_markdown_files, skills_snd, vpj_errors_iff,
      vjf_valid_iff, mcp_valid_iff] <;> tauto

/-! ## C1: required-field error collection -/

/-- The `missing_fields` list computed by `validate_plugin_json`. -/
def missingReq (d : List (String × Json)) : List String :=
  requiredFields.filter (fun f => (d.lookup f).isNone)

/-- The required fields of a manifest object whose value (Python
`data.get(f)`) is not a truthy string — the fields the per-field type checks
object to. -/
def offendingReq (d : List (String × Json)) : List String :=
  requiredFields.filter (fun f => !(isNonEmptyStr ((d.lookup f).getD Json.null)))

/-- The errors of the optional-field checks of `validate_plugin_json`, in
source order. -/
def optFieldErrors (d : List (String × Json)) (pn : String) : List String :=
  (checkAuthor d pn).1 ++ checkOptStr d pn "homepage" ++ checkOptStr d pn "repository" ++
    checkOptStr d pn "license" ++ checkKeywords d pn ++ checkCommands d pn ++
    checkOptStr d pn "agents" ++ checkOptStr d pn "hooks" ++ checkOptStr d pn "mcpServers"

theorem nonEmptyStrMsg_inj (pn f g : String)
    (h : nonEmptyStrMsg pn f = nonEmptyStrMsg pn g) : f = g := by
  unfold nonEmptyStrMsg at h
  rw [String.ext_iff] at h ⊢
  simp only [String.data_append, List.append_assoc] at h
  rwa [List.append_right_inj, List.append_right_inj, List.append_right_inj,
    List.append_left_inj] at h

/-- C1 (amended): when no required field is missing, `validate_plugin_json`
emits one distinct error per required field that is present but not a
non-empty string — collected in one pass, without short-circuiting, followed
by the optional-field errors — and any offender makes the plugin invalid;
when some required field is missing, a single aggregated error lists the
missing fields and the per-field type checks are skipped entirely. -/
theorem required_field_error_collection (d : List (String × Json)) (pn : String) :
    (missingReq d = [] →
      (validate_plugin_json (.ok d) pn).1 =
        (offendingReq d).map (nonEmptyStrMsg pn) ++ optFieldErrors d pn ∧
      (offendingReq d ≠ [] → (validate_plugin_json (.ok d) pn).2 = false)) ∧
    (missingReq d ≠ [] →
      (validate_plugin_json (.ok d) pn).1 = [missingFieldsMsg pn (missingReq d)] ∧
      (validate_plugin_json (.ok d) pn).2 = false) ∧
    ((offendingReq d).map (nonEmptyStrMsg pn)).Nodup := by
  have hnodup : ((offendingReq d).map (nonEmptyStrMsg pn)).Nodup := by
    apply List.Nodup.map_on
    · intro x _ y _ hxy
      exact nonEmptyStrMsg_inj pn x y hxy
    · apply List.Nodup.filter
      decide
  refine ⟨?_, ?_, hnodup⟩
  · intro hm
    have hm' : (requiredFields.filter (fun f => (d.lookup f).isNone)).isEmpty = true := by
      rw [List.isEmpty_iff]
      exact hm
    have heq : (validate_plugin_json (.ok d) pn).1 =
        (offendingReq d).map (nonEmptyStrMsg pn) ++ optFieldErrors d pn := by
      unfold validate_plugin_json
      simp only [hm', if_true]
      by_cases h1 : isNonEmptyStr ((d.lookup "name").getD Json.null) <;>
        by_cases h2 : isNonEmptyStr ((d.lookup "version").getD Json.null) <;>
          by_cases h3 : isNonEmptyStr ((d.lookup "description").getD Json.null) <;>
            simp [offendingReq, requiredFields, checkReq, optFieldErrors, h1, h2, h3]
    refine ⟨heq, ?_⟩
    intro hoff
    cases hv : (validate_plugin_json (.ok d) pn).2
    · rfl
    · exfalso
      have hnil := (vpj_errors_iff (.ok d) pn).mp hv
      rw [heq] at hnil
      rw [List.append_eq_nil, List.map_eq_nil_iff] at hnil
      exact hoff hnil.1
  · intro hm
    have hm' : (requiredFields.filter (fun f => (d.lookup f).isNone)).isEmpty = false := by
      rw [List.isEmpty_eq_false_iff_exists_mem]
      rcases hm' : missingReq d with _ | ⟨x, xs⟩
      · exact absurd hm' hm
      · exact ⟨x, by rw [show requiredFields.filter (fun f => (d.lookup f).isNone) = missingReq d from rfl, hm']; exact List.mem_cons_self x xs⟩
    constructor
    · simp [validate_plugin_json, hm', missingReq]
    · simp [validate_plugin_json, hm']

/-- Witness for `required_field_error_collection` at the manifest
`{"name": "x", "version": "", "description": ""}` (no field missing, two
offenders) and at `{"version": ""}` (two fields missing). -/
theorem required_field_error_collection_witness :
    ((validate_plugin_json
        (.ok [("name", Json.str "x"), ("version", Json.str ""), ("description", Json.str "")])
        "p").1 =
      (offendingReq [("name", Json.str "x"), ("version", Json.str ""), ("description", Json.str "")]).map
          (nonEmptyStrMsg "p") ++
        optFieldErrors [("name", Json.str "x"), ("version", Json.str ""), ("description", Json.str "")] "p") ∧
    (validate_plugin_json (.ok [("version", Json.str "")]) "p").1 =
      [missingFieldsMsg "p" (missingReq [("version", Json.str "")])] :=
  ⟨((required_field_error_collection
      [("name", Json.str "x"), ("version", Json.str ""), ("description", Json.str "")] "p").1
        (by decide)).1,
   (((required_field_error_collection [("version", Json.str "")] "p").2.1) (by decide)).1⟩

/-- C1 counterexample: in the manifest `{"version": ""}` the fields `name`
and `description` are missing and `version` is present but not a non-empty
string — three offending fields — yet `validate_plugin_json` reports exactly
one error in total (the aggregated missing-fields message); contrary to the
claim, the checks short-circuit and the empty `version` is never reported. -/
theorem single_error_despite_three_offenders :
    (validate_plugin_json (.ok [("version", Json.str "")]) "p").1.length = 1 ∧
    missingReq [("version", Json.str "")] = ["name", "description"] ∧
    offendingReq [("version", Json.str "")] = ["name", "version", "description"] := by
  refine ⟨rfl, by decide, by decide⟩

/-! ## C3: a missing manifest does not stop the structural checks -/

/-- A well-formed three-field manifest (for comparing a directory with and
without its manifest). -/
def goodManifest : List (String × Json) :=
  [("name", Json.str "x"), ("version", Json.str "x"), ("description", Json.str "x")]

theorem vpj_goodManifest (pn : String) :
    validate_plugin_json (.ok goodManifest) pn = ([], true) := rfl

/-- C3 (amended): a missing manifest is recorded as an error and makes the
plugin invalid, but the remaining structural checks are not skipped: the
validator reports the missing-file error followed by exactly the same
substructure errors, and exactly the same warnings, as the same directory
carrying a well-formed manifest would get. -/
theorem missing_manifest_checks_continue (p : PluginDir) (h : p.pluginJson = none) :
    (validate_plugin p).2.2 = false ∧
    (validate_plugin p).1 =
      missingManifestMsg p.name ::
        (validate_plugin { p with pluginJson := some (.ok goodManifest) }).1 ∧
    (validate_plugin p).2.1 =
      (validate_plugin { p with pluginJson := some (.ok goodManifest) }).2.1 := by
  rcases p with ⟨pn, pj, cm, ag, sk, hk, sc, mc, li, ch, re⟩
  subst h
  refine ⟨?_, ?_, rfl⟩ <;> simp [validate_plugin, vpj_goodManifest]

/-- The plugin directory of the witness below: no manifest, an empty
`commands/` directory. -/
def pNoManifest : PluginDir :=
  { name := "p"
    pluginJson := none
    commands := some []
    agents := none
    skills := none
    hooks := none
    scripts := false
    mcpJson := none
    license := false
    changelog := false
    readme := false }

/-- Witness for `missing_manifest_checks_continue` at `pNoManifest`. -/
theorem missing_manifest_checks_continue_witness :
    (validate_plugin pNoManifest).2.2 = false ∧
    (validate_plugin pNoManifest).1 =
      missingManifestMsg pNoManifest.name ::
        (validate_plugin { pNoManifest with pluginJson := some (.ok goodManifest) }).1 ∧
    (validate_plugin pNoManifest).2.1 =
      (validate_plugin { pNoManifest with pluginJson := some (.ok goodManifest) }).2.1 :=
  missing_manifest_checks_continue pNoManifest rfl

/-- C3 counterexample: a plugin directory with no manifest, an empty
`commands/` directory and a `hooks/` directory holding one unparsable JSON
file.  Besides the missing-file error, the validator still reports the hooks
parse error and the empty-commands warning — the substructure checks were not
skipped. -/
theorem checks_run_after_missing_manifest :
    validate_plugin
      { name := "p"
        pluginJson := none
        commands := some []
        agents := none
        skills := none
        hooks := some [{ name := "bad.json", parses := false }]
        scripts := false
        mcpJson := none
        license := false
        changelog := false
        readme := false } =
      (["[p] Missing required file: .claude-plugin/plugin.json (Plugin manifest file)",
        "[p] Invalid JSON in bad.json"],
       ["[p] commands/ directory exists but contains no .md files"], false) := rfl

/-! ## C8: a minimal manifest validates cleanly -/

/-- C8: a plugin directory whose only content is a manifest holding exactly
`name`, `version`, `description` as non-empty strings produces zero errors
and zero warnings and is valid. -/
theorem minimal_manifest_clean (pn n v dsc : String)
    (hn : n ≠ "") (hv : v ≠ "") (hd : dsc ≠ "") :
    validate_plugin
      { name := pn
        pluginJson := some (.ok [("name", Json.str n), ("version", Json.str v),
          ("description", Json.str dsc)])
        commands := none
        agents := none
        skills := none
        hooks := none
        scripts := false
        mcpJson := none
        license := false
        changelog := false
        readme := false } =
      ([], [], true) := by
  simp [validate_plugin, validate_plugin_json, requiredFields, checkReq, checkOptStr,
    checkAuthor, checkKeywords, checkCommands, isNonEmptyStr, List.lookup, hn, hv, hd]

/-- Witness for `minimal_manifest_clean`. -/
theorem minimal_manifest_clean_witness :
    validate_plugin
      { name := "a"
        pluginJson := some (.ok [("name", Json.str "x"), ("version", Json.str "1.0.0"),
          ("description", Json.str "a plugin")])
        commands := none
        agents := none
        skills := none
        hooks := none
        scripts := false
        mcpJson := none
        license := false
        changelog := false
        readme := false } =
      ([], [], true) :=
  minimal_manifest_clean "a" "x" "1.0.0" "a plugin" (by decide) (by decide) (by decide)

/-! ## C2: membership in the migrated-plugin set -/

/-- C2 (amended): a directory belongs to the migrated set (the keys of the
dict built by `get_plugin_list`) exactly when it is a directory whose
manifest file exists and loads successfully as JSON; a manifest whose load
fails leaves the directory out. -/
theorem migrated_iff_manifest_loads (entries : List DirEntry) (nm : String) :
    nm ∈ (get_plugin_list entries).1.map Prod.fst ↔
      ∃ e ∈ entries, e.isDir = true ∧ e.name = nm ∧
        ∃ d, e.pluginJson = some (.ok d) := by
  induction entries with
  | nil => simp [get_plugin_list]
  | cons e rest ih =>
    rcases e with ⟨en, ed, epj⟩
    cases ed
    · simp [get_plugin_list, ih]
    · cases epj with
      | none => simp [get_plugin_list, ih]
      | some r =>
        cases r with
        | ok d =>
          simp only [get_plugin_list, if_true, List.map_cons, List.mem_cons]
          rw [ih]
          constructor
          · rintro (rfl | ⟨e2, he2, hrest⟩)
            · exact ⟨_, Or.inl rfl, rfl, rfl, d, rfl⟩
            · exact ⟨e2, Or.inr he2, hrest⟩
          · rintro ⟨e2, rfl | he2, hdir, hname, d2, hpj⟩
            · exact Or.inl hname.symm
            · exact Or.inr ⟨e2, he2, hdir, hname, d2, hpj⟩
        | parseError => simp [get_plugin_list, ih]
        | readError => simp [get_plugin_list, ih]

/-- C2 counterexample: a directory whose manifest file exists but fails to
parse as JSON is excluded from the migrated set (with a warning), so whether
the manifest parses does affect membership. -/
theorem parse_failure_excluded_from_migrated :
    get_plugin_list [{ name := "foo", isDir := true, pluginJson := some .parseError }] =
      ([], ["Could not read plugin.json for foo"]) := rfl

/-! ## C4: the CI-diff check -/

theorem validate_on_pr_some (changed : List String) :
    validate_on_pr (some changed) =
      (if (changed.filter (fun f => f.startsWith "plugins/")).isEmpty = true then ([], true)
       else if (changed.contains "README.md" || changed.contains "plugins.md") = true then
         ([], true)
       else ([prMismatchMsg], false)) := rfl

/-- C4: with an obtained changed-file list, `validate_on_pr` produces its one
error exactly when some changed path lies under `plugins/` and neither
`README.md` nor `plugins.md` occurs (verbatim) in the list; a failed diff
(`none`) yields success with no error. -/
theorem pr_check_characterization :
    (∀ changed : List String,
      ((validate_on_pr (some changed)).1 ≠ [] ∧ (validate_on_pr (some changed)).2 = false) ↔
        ((∃ f ∈ changed, f.startsWith "plugins/" = true) ∧
          "README.md" ∉ changed ∧ "plugins.md" ∉ changed)) ∧
    validate_on_pr none = ([], true) := by
  refine ⟨?_, rfl⟩
  intro changed
  rw [validate_on_pr_some]
  by_cases h1 : (changed.filter (fun f => f.startsWith "plugins/")).isEmpty = true
  · rw [if_pos h1]
    rw [List.isEmpty_iff, List.filter_eq_nil_iff] at h1
    constructor
    · rintro ⟨h, -⟩
      exact absurd rfl h
    · rintro ⟨⟨f, hf, hs⟩, -, -⟩
      exact absurd hs (by simpa using h1 f hf)
  · rw [if_neg h1]
    rw [Bool.not_eq_true, List.isEmpty_eq_false] at h1
    by_cases h2 : (changed.contains "README.md" || changed.contains "plugins.md") = true
    · rw [if_pos h2]
      have h2' : "README.md" ∈ changed ∨ "plugins.md" ∈ changed := by simpa using h2
      constructor
      · rintro ⟨h, -⟩
        exact absurd rfl h
      · rintro ⟨-, hr, hp⟩
        rcases h2' with h | h
        · exact (hr h).elim
        · exact (hp h).elim
    · rw [if_neg h2]
      have h2' : ¬("README.md" ∈ changed ∨ "plugins.md" ∈ changed) := by
        intro hc
        apply h2
        simpa using hc
      push_neg at h2'
      rcases List.exists_mem_of_ne_nil _ h1 with ⟨f, hf⟩
      rw [List.mem_filter] at hf
      exact ⟨fun _ => ⟨⟨f, hf.1, hf.2⟩, h2'.1, h2'.2⟩, fun _ => ⟨by simp, rfl⟩⟩

/-! ## C10: the denylist is always removed -/

/-- C10: whatever the input text, no member of the fixed false-positive
denylist survives into the set returned by
`extract_plugin_names_from_markdown`. -/
theorem denylist_never_extracted (content t : String) (h : t ∈ falsePositives) :
    t ∉ extract_plugin_names_from_markdown content := by
  unfold extract_plugin_names_from_markdown
  intro hmem
  rw [List.mem_filter] at hmem
  have h2 := hmem.2
  simp at h2
  exact h2 h

/-- Witness for `denylist_never_extracted`: the text mentions `my-plugin`
through the install pattern, yet it is not extracted. -/
theorem denylist_never_extracted_witness :
    "my-plugin" ∉ extract_plugin_names_from_markdown "/plugin install my-plugin" :=
  denylist_never_extracted "/plugin install my-plugin" "my-plugin" (by decide)

/-! ## C7: shape of the extraction -/

theorem scanInstall_tokChar (fuel : Nat) :
    ∀ (cs t : List Char), t ∈ scanInstall fuel cs → ∀ c ∈ t, tokChar c = true := by
  induction fuel with
  | zero =>
    intro cs t ht
    simp [scanInstall] at ht
  | succ n ih =>
    intro cs t ht
    cases cs with
    | nil => simp [scanInstall] at ht
    | cons c rest =>
      simp only [scanInstall] at ht
      by_cases hm : matchCI installLit (c :: rest) = true
      · rw [if_pos hm] at ht
        by_cases he : (((c :: rest).drop installLit.length).takeWhile tokChar).isEmpty = true
        · rw [if_pos he] at ht
          exact ih _ _ ht
        · rw [if_neg he] at ht
          rcases List.mem_cons.mp ht with rfl | ht
          · intro x hx
            exact List.mem_takeWhile_imp hx
          · exact ih _ _ ht
      · rw [if_neg hm] at ht
        exact ih _ _ ht

theorem scanAt_tokChar (fuel : Nat) :
    ∀ (cs t : List Char), t ∈ scanAt fuel cs → ∀ c ∈ t, tokChar c = true := by
  induction fuel with
  | zero =>
    intro cs t ht
    simp [scanAt] at ht
  | succ n ih =>
    intro cs t ht
    cases cs with
    | nil => simp [scanAt] at ht
    | cons c rest =>
      simp only [scanAt] at ht
      by_cases hc : tokChar c = true
      · rw [if_pos hc] at ht
        split at ht
        · rcases List.mem_cons.mp ht with rfl | ht
          · intro x hx
            exact List.mem_takeWhile_imp hx
          · exact ih _ _ ht
        · exact ih _ _ ht
      · rw [if_neg hc] at ht
        exact ih _ _ ht

/-- C7 (amended): the extracted candidate set is exactly the union of the
three pattern families minus the fixed denylist; and every token of the
first two families is a run of letters — of either case, since the source
applies the patterns with `re.IGNORECASE` — digits, and hyphens. -/
theorem extraction_characterization (content n : String) :
    (n ∈ extract_plugin_names_from_markdown content ↔
      ((n ∈ installTokens content ∨ n ∈ atTokens content ∨ n ∈ boldTokens content) ∧
        n ∉ falsePositives)) ∧
    ((n ∈ installTokens content ∨ n ∈ atTokens content) →
      ∀ c ∈ n.data, tokChar c = true) := by
  constructor
  · unfold extract_plugin_names_from_markdown
    simp [List.mem_filter, List.mem_dedup, or_assoc]
  · rintro (hn | hn) c hc
    · rcases List.mem_map.mp hn with ⟨t, ht, rfl⟩
      exact scanInstall_tokChar _ _ t ht c hc
    · rcases List.mem_map.mp hn with ⟨t, ht, rfl⟩
      exact scanAt_tokChar _ _ t ht c hc

/-- Witness for `extraction_characterization`: `foo-2` is extracted from an
install command, and the theorem applies to its leading character. -/
theorem extraction_characterization_witness :
    ("foo-2" ∈ extract_plugin_names_from_markdown "/plugin install foo-2") ∧
    tokChar 'f' = true :=
  ⟨((extraction_characterization "/plugin install foo-2" "foo-2").1).mpr
      ⟨Or.inl (by decide), by decide⟩,
   (extraction_characterization "/plugin install foo-2" "foo-2").2 (Or.inl (by decide))
     'f' (by decide)⟩

/-- C7 counterexample: because the source compiles its patterns with
`re.IGNORECASE`, the install pattern captures `FOO` — a token with uppercase
letters — contradicting the claim that tokens of the first two families
consist only of lowercase letters, digits, and hyphens. -/
theorem uppercase_token_extracted :
    installTokens "/plugin install FOO" = ["FOO"] ∧
    ("FOO" ∈ extract_plugin_names_from_markdown "/plugin install FOO") ∧
    ("FOO".data.all (fun c => c.isLower || c.isDigit || c == '-')) = false := by
  refine ⟨rfl, by decide, by decide⟩

/-! ## C6: the discrepancy policy per checked document -/

/-- C6 (amended): for each documentation text the checker actually examines
(`README.md` whenever present; `plugins.md` only when catalog-like, see the
`plugins.md` gate), a non-empty difference of migrated names against the
extracted candidates produces exactly one aggregated warning listing the
sorted missing names, an empty difference produces none, a name found in the
extraction is never listed as missing, and `validate_marketplace_sync` never
emits an error. -/
theorem doc_sync_warning_policy (label content : String) (keys : List String) :
    ((keys.filter
        (fun k => !((extract_plugin_names_from_markdown content).contains k)) ≠ [] →
      (doc_check label keys content).1 =
        [mayBeMissingMsg label
          (keys.filter
            (fun k => !((extract_plugin_names_from_markdown content).contains k)))]) ∧
     (keys.filter
        (fun k => !((extract_plugin_names_from_markdown content).contains k)) = [] →
      (doc_check label keys content).1 = []) ∧
     (∀ k ∈ keys, k ∈ extract_plugin_names_from_markdown content →
       k ∉ keys.filter
         (fun k => !((extract_plugin_names_from_markdown content).contains k)))) ∧
    (∀ inp : SyncInput, (validate_marketplace_sync inp).1 = []) := by
  refine ⟨⟨?_, ?_, ?_⟩, ?_⟩
  · intro hne
    unfold doc_check
    rw [if_neg]
    simp only [List.isEmpty_iff]
    exact hne
  · intro he
    unfold doc_check
    rw [if_pos]
    rw [List.isEmpty_iff]
    exact he
  · intro k hk hext hmem
    rw [List.mem_filter] at hmem
    have h2 := hmem.2
    simp at h2
    exact h2 hext
  · intro inp
    simp only [validate_marketplace_sync]
    split <;> rfl

/-- Witness for `doc_sync_warning_policy`: with migrated plugins `bar`, `foo`
and a text installing only `foo`, the one aggregated warning lists `bar`. -/
theorem doc_sync_warning_policy_witness :
    (doc_check "README.md" ["bar", "foo"] "/plugin install foo").1 =
      [mayBeMissingMsg "README.md" ["bar"]] := by
  exact ((doc_sync_warning_policy "README.md" "/plugin install foo" ["bar", "foo"]).1.1)
    (by decide)

/-- The input of the C6 counterexample: one migrated plugin `foo`; a README
that mentions it; a `plugins.md` that exists, mentions no plugin, and is not
catalog-like. -/
def fooManifest : List (String × Json) :=
  [("name", Json.str "foo"), ("version", Json.str "1.0.0"), ("description", Json.str "x")]

def syncCounterInput : SyncInput :=
  { entries := [{ name := "foo", isDir := true, pluginJson := some (.ok fooManifest) }]
    readme := some "/plugin install foo"
    pluginsMd := some "a list of plugins without the heading" }

/-- C6 counterexample: `plugins.md` exists and the set difference for it is
non-empty (`foo` is migrated but not extracted from its text), yet the
checker emits no warning at all — the text lacks `# Plugins`, so it is never
checked, contrary to the claim quantified over every existing documentation
text. -/
theorem no_warning_for_unchecked_doc :
    validate_marketplace_sync syncCounterInput = ([], [], true) ∧
    (extract_plugin_names_from_markdown
        "a list of plugins without the heading").contains "foo" = false ∧
    (get_plugin_list syncCounterInput.entries).1.map Prod.fst = ["foo"] := by
  refine ⟨by decide, by decide, by decide⟩

/-! ## C9: the plugins.md catalog gate -/

/-- C9: the set-difference check runs on `plugins.md` exactly under the
catalog heuristic: when `catalogLike` fails, the result is identical to the
file being absent; when it holds, the `plugins.md` check contributes exactly
its warnings and its validity conjunct. -/
theorem plugins_md_gate (inp : SyncInput) (content : String) :
    (catalogLike content = false →
      validate_marketplace_sync { inp with pluginsMd := some content } =
        validate_marketplace_sync { inp with pluginsMd := none }) ∧
    (catalogLike content = true →
      (validate_marketplace_sync { inp with pluginsMd := some content }).2.1 =
        (validate_marketplace_sync { inp with pluginsMd := none }).2.1 ++
          (doc_check "plugins.md"
            ((get_plugin_list inp.entries).1.map Prod.fst) content).1 ∧
      (validate_marketplace_sync { inp with pluginsMd := some content }).2.2 =
        ((validate_marketplace_sync { inp with pluginsMd := none }).2.2 &&
          (doc_check "plugins.md"
            ((get_plugin_list inp.entries).1.map Prod.fst) content).2)) := by
  constructor
  · intro hg
    simp only [validate_marketplace_sync, hg, Bool.false_eq_true, if_false]
  · intro hg
    simp only [validate_marketplace_sync, hg, if_true]
    by_cases hE : (get_plugin_list inp.entries).1.isEmpty = true
    · have hnil : (get_plugin_list inp.entries).1 = [] := List.isEmpty_iff.mp hE
      rw [if_pos hE, if_pos hE]
      simp [doc_check, hnil]
    · rw [if_neg hE, if_neg hE]
      simp [List.append_assoc]

/-- Witness for `plugins_md_gate`: with no plugin directories, a
non-catalog `plugins.md` yields the same result as no `plugins.md`, and a
catalog-like one contributes exactly the `doc_check` warnings. -/
theorem plugins_md_gate_witness :
    (validate_marketplace_sync { entries := [], readme := none, pluginsMd := some "intro" } =
      validate_marketplace_sync { entries := [], readme := none, pluginsMd := none }) ∧
    (validate_marketplace_sync
        { entries := [], readme := none, pluginsMd := some "# Plugins" }).2.1 =
      (validate_marketplace_sync { entries := [], readme := none, pluginsMd := none }).2.1 ++
        (doc_check "plugins.md"
          ((get_plugin_list ([] : List DirEntry)).1.map Prod.fst) "# Plugins").1 :=
  ⟨(plugins_md_gate { entries := [], readme := none, pluginsMd := none } "intro").1
      (by decide),
   ((plugins_md_gate { entries := [], readme := none, pluginsMd := none } "# Plugins").2
      (by decide)).1⟩
